import Mathlib

/-!
Verification of the `triton-audit-logger` audit-record builder.

The repository ships a restify `after`-event handler factory
(`createAuditLogHandler` in `lib/audit-logger.js`) whose behaviour is
documented in the README, exercised by `test/unit/*.test.js`, and
demonstrated by `examples/hello-world.js`.  The core library file itself is
not part of the available sources, so the core logic below is modelled from
the specification (policy resolution, route-override resolution, body
capture, error formatting, mutation hook, record assembly and emission),
and the tests and examples are used as concrete evidence.

All machine strings are Lean `String`s (lists of characters); truncation and
substring containment are expressed on the underlying character lists.
-/

namespace TritonAuditLogger

/-- Modelled from the spec: the fixed set of severity levels the sink
recognises (at minimum: trace, debug, info, warn, error). -/
inductive LogLevel where
  | trace
  | debug
  | info
  | warn
  | error
deriving DecidableEq, Repr

/-- Modelled from the spec (missing `lib/audit-logger.js`): a raw
body-capture configuration object as supplied by the caller for `reqBody`
or `resBody`.  Every field is optional; `\x7b\x7d` (all fields absent) is the
"enable with defaults" marker. -/
structure BodyPolicyRaw where
  incl : Option Bool := none
  maxLen : Option Nat := none
  includeGet2xx : Option Bool := none
deriving DecidableEq, Repr

/-- Modelled from the spec: a fully resolved body-capture policy. -/
structure BodyPolicy where
  incl : Bool
  maxLen : Nat
  includeGet2xx : Bool
deriving DecidableEq, Repr

/-- Modelled from the spec (missing `lib/audit-logger.js`, §4.1 BodyPolicy
Resolver): an absent policy disables capture; a present policy defaults
`include` to true, `maxLen` to 10240 and `includeGet2xx` to false. -/
def resolveBodyPolicy : Option BodyPolicyRaw → BodyPolicy
  | none => { incl := false, maxLen := 10240, includeGet2xx := false }
  | some raw =>
      { incl := raw.incl.getD true,
        maxLen := raw.maxLen.getD 10240,
        includeGet2xx := raw.includeGet2xx.getD false }

/-- Modelled from the spec: a per-route override entry; each field is
optional and an unspecified field inherits the global default. -/
structure RouteOverride where
  incl : Option Bool := none
  logLevel : Option LogLevel := none
deriving DecidableEq, Repr

/-- Modelled from the spec: the effective per-route configuration. -/
structure RouteConfig where
  incl : Bool
  logLevel : LogLevel
deriving DecidableEq, Repr

/-- Modelled from the spec (missing `lib/audit-logger.js`, §4.2 Route
Override Resolver): exact-string lookup in the override map; absence of an
entry, or of a field in a partial entry, yields the global defaults
`include = true`, `logLevel = info`.  The response status plays no role. -/
def resolveRoute (overrides : List (String × RouteOverride))
    (routeId : String) : RouteConfig :=
  match overrides.lookup routeId with
  | none => { incl := true, logLevel := LogLevel.info }
  | some ov =>
      { incl := ov.incl.getD true,
        logLevel := ov.logLevel.getD LogLevel.info }

/-- Modelled from the spec: structured (JSON-serialisable) data, as carried
by an already-materialised request or response body. -/
inductive Json where
  | str (s : String)
  | num (n : Int)
  | jbool (b : Bool)
  | jnull
  | arr (elems : List Json)
  | obj (fields : List (String × Json))

mutual

/-- Modelled from the spec (§4.3 step 4): canonical JSON text form of a
structured body. -/
def Json.render : Json → String
  | Json.str s => "\"" ++ s ++ "\""
  | Json.num n => toString n
  | Json.jbool true => "true"
  | Json.jbool false => "false"
  | Json.jnull => "null"
  | Json.arr elems => "[" ++ Json.renderElems elems ++ "]"
  | Json.obj fields => "\x7b" ++ Json.renderFields fields ++ "\x7d"

/-- Comma-separated rendering of array elements. -/
def Json.renderElems : List Json → String
  | [] => ""
  | [x] => Json.render x
  | x :: y :: rest => Json.render x ++ "," ++ Json.renderElems (y :: rest)

/-- Comma-separated rendering of object members. -/
def Json.renderFields : List (String × Json) → String
  | [] => ""
  | [(k, v)] => "\"" ++ k ++ "\":" ++ Json.render v
  | (k, v) :: kv :: rest =>
      "\"" ++ k ++ "\":" ++ Json.render v ++ "," ++
        Json.renderFields (kv :: rest)

end

/-- Modelled from the spec: the raw body value available to the handler
after the request/response lifecycle: absent, binary/buffer content
(never captured), plain text, or structured data. -/
inductive BodyVal where
  | absent
  | binary (size : Nat)
  | text (s : String)
  | structured (j : Json)

/-- Hard character cutoff used for body truncation (`maxLen` clipping). -/
def clip (s : String) (n : Nat) : String :=
  ⟨s.data.take n⟩

/-- Modelled from the spec (missing `lib/audit-logger.js`, §4.3 Body
Capturer): no capture when the policy is disabled, when the value is
absent or binary, or when the method is GET with a 2xx status and
`includeGet2xx` is false; otherwise the text (or canonical JSON) form,
clipped to `maxLen` characters. -/
def captureBody (pol : BodyPolicy) (method : String) (status : Nat) :
    BodyVal → Option String
  | BodyVal.absent => none
  | BodyVal.binary _ => none
  | bv =>
      if pol.incl = false then
        none
      else if method = "GET" && decide (200 ≤ status) &&
          decide (status < 300) && !pol.includeGet2xx then
        none
      else
        match bv with
        | BodyVal.text s => some (clip s pol.maxLen)
        | BodyVal.structured j => some (clip j.render pol.maxLen)
        | _ => none

/-- Modelled from the spec (§4.4, §9): a pipeline error as an explicit
linked structure — an error either stands alone or wraps an earlier
"cause" error that triggered it.  `frames` is the stack-frame text below
the `name: message` header line of the error's own stack. -/
inductive JsError where
  | base (name message frames : String)
  | wrap (name message frames : String) (cause : JsError)
deriving DecidableEq, Repr

/-- Name of the (outermost constructor of the) error. -/
def JsError.name : JsError → String
  | JsError.base n _ _ => n
  | JsError.wrap n _ _ _ => n

/-- Message of the (outermost constructor of the) error. -/
def JsError.message : JsError → String
  | JsError.base _ m _ => m
  | JsError.wrap _ m _ _ => m

/-- The error's own stack text: a `name: message` header line followed by
its stack frames. -/
def JsError.ownStack : JsError → String
  | JsError.base n m f => n ++ ": " ++ m ++ "\n" ++ f
  | JsError.wrap n m f _ => n ++ ": " ++ m ++ "\n" ++ f

/-- Modelled from the spec (missing `lib/audit-logger.js`, §4.4 Error
Formatter): flattened stack text — the outer error's own stack with the
textual stack of every error in the cause chain appended, bounded
traversal of the explicit linked structure. -/
def JsError.fullStack : JsError → String
  | JsError.base n m f => JsError.ownStack (JsError.base n m f)
  | JsError.wrap n m f c =>
      JsError.ownStack (JsError.wrap n m f c) ++ "\nCaused by: " ++
        JsError.fullStack c

/-- The messages of every error in the cause chain, outermost first. -/
def JsError.chainMessages : JsError → List String
  | JsError.base _ m _ => [m]
  | JsError.wrap _ m _ c => m :: JsError.chainMessages c

/-- Modelled from the spec: the `\x7bname, message, stack\x7d` error detail
placed in an audit record. -/
structure ErrDetail where
  name : String
  message : String
  stack : String
deriving DecidableEq, Repr

/-- Modelled from the spec (missing `lib/audit-logger.js`, §4.4): name and
message come from the outer error; the stack is the flattened cause-chain
text. -/
def formatError (e : JsError) : ErrDetail :=
  { name := e.name, message := e.message, stack := e.fullStack }

/-- Modelled from the spec (§6): the request data the handler consumes —
method, URL, headers, already-materialised body, remote address. -/
structure Req where
  method : String
  url : String
  headers : List (String × String)
  body : BodyVal
  remoteAddress : String
  startTime : Nat

/-- Modelled from the spec (§6): the response data the handler consumes. -/
structure Res where
  statusCode : Nat
  headers : List (String × String)
  body : BodyVal

/-- Request-side fields of an audit record. -/
structure ReqFields where
  method : String
  url : String
  headers : List (String × String)
  body : Option String
  remoteAddress : String
deriving DecidableEq, Repr

/-- Response-side fields of an audit record. -/
structure ResFields where
  statusCode : Nat
  headers : List (String × String)
  body : Option String
deriving DecidableEq, Repr

/-- Modelled from the spec (§3 AuditRecord): the structured record
describing one completed HTTP exchange. -/
structure AuditRecord where
  audit : Bool
  route : String
  req : ReqFields
  res : ResFields
  err : Option ErrDetail
  latency : Nat
deriving DecidableEq, Repr

/-- Modelled from the spec (§4.5): the user-supplied mutation hook
(`polish`), which may rewrite the assembled fields or throw; a throw is
represented by `Except.error` carrying the thrown message. -/
def MutationHook : Type :=
  AuditRecord → Except String AuditRecord

/-- The trivial hook: mutate nothing, never throw. -/
def noHook : MutationHook :=
  fun fields => Except.ok fields

/-- Modelled from the spec (missing `lib/audit-logger.js`): the handler's
global configuration, frozen at construction time. -/
structure AuditConfig where
  reqBody : Option BodyPolicyRaw := none
  resBody : Option BodyPolicyRaw := none
  routeOverrides : List (String × RouteOverride) := []

/-- Modelled from the spec (§4.6): the field set assembled for one
invocation, before the mutation hook runs. -/
def assembleFields (cfg : AuditConfig) (req : Req) (res : Res)
    (routeId : String) (err : Option JsError) (now : Nat) : AuditRecord :=
  { audit := true,
    route := routeId,
    req :=
      { method := req.method,
        url := req.url,
        headers := req.headers,
        body := captureBody (resolveBodyPolicy cfg.reqBody) req.method
          res.statusCode req.body,
        remoteAddress := req.remoteAddress },
    res :=
      { statusCode := res.statusCode,
        headers := res.headers,
        body := captureBody (resolveBodyPolicy cfg.resBody) req.method
          res.statusCode res.body },
    err := err.map formatError,
    latency := now - req.startTime }

/-- One emission through the logging sink: a record at a severity level. -/
structure Emission where
  level : LogLevel
  record : AuditRecord
deriving DecidableEq, Repr

/-- Modelled from the spec (missing `lib/audit-logger.js`, §4.6 and §2
control flow): one handler invocation.  Resolve the route configuration;
if its `include` is false, suppress entirely; otherwise assemble the
fields (extracting request/response data, capturing bodies under the
resolved policies, formatting any error), run the mutation hook —
catching any hook throw and falling back to the unmutated fields — and
emit exactly one record at the resolved level.  The returned list is the
sequence of sink emissions performed by the invocation. -/
def auditLogHandler (cfg : AuditConfig) (hook : MutationHook) (req : Req)
    (res : Res) (routeId : String) (err : Option JsError) (now : Nat) :
    List Emission :=
  let rc := resolveRoute cfg.routeOverrides routeId
  if rc.incl = false then
    []
  else
    let fields := assembleFields cfg req res routeId err now
    let final :=
      match hook fields with
      | Except.ok mutated => mutated
      | Except.error _ => fields
    [{ level := rc.logLevel, record := final }]

/-- Substring containment: `sub` occurs contiguously inside `s`. -/
def containsStr (s sub : String) : Prop :=
  sub.data <:+: s.data

instance (s sub : String) : Decidable (containsStr s sub) := by
  unfold containsStr
  infer_instance

/-- The text a present, non-binary body is captured as: plain text
verbatim, structured data in canonical JSON form; absent and binary
bodies have no text form. -/
def BodyVal.textForm : BodyVal → Option String
  | BodyVal.absent => none
  | BodyVal.binary _ => none
  | BodyVal.text s => some s
  | BodyVal.structured j => some j.render

-- ---- helper lemmas ----

theorem containsStr_refl (s : String) : containsStr s s :=
  List.infix_refl s.data

theorem containsStr_append_left (x s sub : String)
    (h : containsStr s sub) : containsStr (x ++ s) sub := by
  unfold containsStr at h ⊢
  rw [String.data_append]
  exact h.trans (List.suffix_append x.data s.data).isInfix

theorem containsStr_append_right (s x sub : String)
    (h : containsStr s sub) : containsStr (s ++ x) sub := by
  unfold containsStr at h ⊢
  rw [String.data_append]
  exact h.trans (List.prefix_append s.data x.data).isInfix

theorem containsStr_header (n m f : String) :
    containsStr (n ++ ": " ++ m ++ "\n" ++ f) m := by
  apply containsStr_append_right
  apply containsStr_append_right
  exact containsStr_append_left (n ++ ": ") m m (containsStr_refl m)

/-- Every message in the cause chain occurs in the flattened stack text. -/
theorem chainMessages_containsStr_fullStack (e : JsError) :
    ∀ m ∈ e.chainMessages, containsStr e.fullStack m := by
  induction e with
  | base n msg f =>
      intro m hm
      simp only [JsError.chainMessages, List.mem_singleton] at hm
      subst hm
      simpa [JsError.fullStack, JsError.ownStack] using containsStr_header n m f
  | wrap n msg f c ih =>
      intro m hm
      simp only [JsError.chainMessages, List.mem_cons] at hm
      rcases hm with hm | hm
      · subst hm
        simp only [JsError.fullStack, JsError.ownStack]
        apply containsStr_append_right
        apply containsStr_append_right
        exact containsStr_header n m f
      · simp only [JsError.fullStack, JsError.ownStack]
        exact containsStr_append_left _ _ _ (ih m hm)

/-- The outer message heads the chain. -/
theorem message_mem_chainMessages (e : JsError) :
    e.message ∈ e.chainMessages := by
  cases e <;> simp [JsError.message, JsError.chainMessages]

/-- Clipping a string already within the limit is the identity. -/
theorem clip_of_length_le (s : String) (n : Nat) (h : s.length ≤ n) :
    clip s n = s := by
  unfold clip
  rw [List.take_of_length_le h]

/-- The clipped length is the minimum of the limit and the full length. -/
theorem length_clip (s : String) (n : Nat) :
    (clip s n).length = min n s.length := by
  unfold clip
  rw [String.length_mk, List.length_take]
  rfl

/-- Characterisation of the body capturer: capture happens exactly when the
policy is enabled, the GET-2xx suppression does not fire, and the body has
a text form; the captured text is that form clipped at `maxLen`. -/
theorem captureBody_eq (pol : BodyPolicy) (m : String) (st : Nat)
    (bv : BodyVal) :
    captureBody pol m st bv =
      if pol.incl = true ∧
          ¬(m = "GET" ∧ 200 ≤ st ∧ st < 300 ∧ pol.includeGet2xx = false) then
        (BodyVal.textForm bv).map (fun t => clip t pol.maxLen)
      else none := by
  cases hpol : pol.incl <;>
    cases hg : pol.includeGet2xx <;>
      cases bv <;>
        simp [captureBody, BodyVal.textForm, hpol, hg, and_assoc,
          Decidable.not_and_iff_or_not] <;>
          by_cases hm : m = "GET" <;>
            by_cases h200 : 200 ≤ st <;>
              by_cases h300 : st < 300 <;>
                simp [hm, h200, h300] <;>
                  first
                    | omega
                    | rw [if_neg (by omega)]

/-- Characterisation of one handler invocation: suppression when the
resolved `include` is false, otherwise a single emission at the resolved
level whose record is the assembled field set after the (failure-isolated)
mutation hook. -/
theorem auditLogHandler_eq (cfg : AuditConfig) (hook : MutationHook)
    (req : Req) (res : Res) (routeId : String) (err : Option JsError)
    (now : Nat) :
    auditLogHandler cfg hook req res routeId err now =
      if (resolveRoute cfg.routeOverrides routeId).incl = true then
        [{ level := (resolveRoute cfg.routeOverrides routeId).logLevel,
           record :=
             match hook (assembleFields cfg req res routeId err now) with
             | Except.ok mutated => mutated
             | Except.error _ => assembleFields cfg req res routeId err now }]
      else [] := by
  unfold auditLogHandler
  cases h : (resolveRoute cfg.routeOverrides routeId).incl <;> simp [h]

-- ---- concrete fixtures used by witnesses ----

/-- A sample request for witness instantiations. -/
def wReq (method url : String) (bv : BodyVal) : Req :=
  { method := method, url := url, headers := [("accept", "application/json")],
    body := bv, remoteAddress := "127.0.0.1", startTime := 2 }

/-- A sample response for witness instantiations. -/
def wRes (st : Nat) (bv : BodyVal) : Res :=
  { statusCode := st, headers := [("content-type", "application/json")],
    body := bv }

/-- The error raised by the `/oops` endpoint of the test server: an
`InternalError` wrapping a root-cause `Error`. -/
def wErr : JsError :=
  JsError.wrap "InternalError" "something blew up" "    at handleOops"
    (JsError.base "Error" "this was the root cause" "    at oops")

/-- The README starter configuration: body logging enabled with defaults
and the `getping` route fully excluded. -/
def wCfgPing : AuditConfig :=
  { reqBody := some {},
    resBody := some {},
    routeOverrides := [("getping", { incl := some false })] }

-- ---- claims ----

/-- C1 counterexample: under the default body-capture policy
(`reqBody = \x7b\x7d`, `resBody = \x7b\x7d`), a PUT invocation with a 404 status whose
response body is binary/buffer content emits a record with the response
body omitted, although the claim requires every non-GET invocation's
response body to be included. -/
theorem c1_counterexample :
    (auditLogHandler
        { reqBody := some {}, resBody := some {}, routeOverrides := [] }
        noHook
        { method := "PUT", url := "/join", headers := [],
          body := BodyVal.text "\x7b\"login\":\"bob\"\x7d",
          remoteAddress := "127.0.0.1", startTime := 0 }
        { statusCode := 404, headers := [], body := BodyVal.binary 3 }
        "putjoin" none 1).map (fun em => em.record.res.body) = [none] := by
  rfl

/-- C1 (amended): under the default body-capture policy, the emitted
record's response body is omitted when the method is GET and the status is
in [200,300), and also when the response body is absent or binary/buffer
content; for any other invocation the body's text form is included,
truncated at the default `maxLen` of 10240 characters. -/
theorem c1_default_policy_res_body (method url ra rid : String)
    (t0 now st : Nat) (reqBv resBv : BodyVal)
    (hs1 hs2 : List (String × String)) (err : Option JsError) :
    (auditLogHandler
        { reqBody := some {}, resBody := some {}, routeOverrides := [] }
        noHook
        { method := method, url := url, headers := hs1, body := reqBv,
          remoteAddress := ra, startTime := t0 }
        { statusCode := st, headers := hs2, body := resBv }
        rid err now).map (fun em => em.record.res.body) =
      [if method = "GET" ∧ 200 ≤ st ∧ st < 300 then none
       else (BodyVal.textForm resBv).map (fun t => clip t 10240)] := by
  have hrr : resolveRoute ([] : List (String × RouteOverride)) rid =
      { incl := true, logLevel := LogLevel.info } := rfl
  rw [auditLogHandler_eq]
  simp only [hrr, if_pos rfl, noHook, List.map, assembleFields,
    captureBody_eq, resolveBodyPolicy, Option.getD]
  by_cases hc : method = "GET" ∧ 200 ≤ st ∧ st < 300
  · simp [hc]
  · simp [hc]

/-- C2: with no `reqBody` and no `resBody` policy configured, every
emitted record has both body fields absent, for every method, status,
route-override map and presence or absence of a pipeline error. -/
theorem c2_no_policy_no_bodies (ro : List (String × RouteOverride))
    (req : Req) (res : Res) (rid : String) (err : Option JsError)
    (now : Nat) :
    ∀ em ∈ auditLogHandler
        { reqBody := none, resBody := none, routeOverrides := ro }
        noHook req res rid err now,
      em.record.req.body = none ∧ em.record.res.body = none := by
  intro em hem
  rw [auditLogHandler_eq] at hem
  split at hem
  · rw [List.mem_singleton] at hem
    subst hem
    simp [noHook, assembleFields, captureBody_eq, resolveBodyPolicy]
  · simp at hem

/-- C2 witness: concrete GET invocation under the empty configuration. -/
theorem c2_witness :
    (Emission.record
        ⟨LogLevel.info,
          assembleFields ({} : AuditConfig)
            (wReq "GET" "/hello" BodyVal.absent)
            (wRes 200 (BodyVal.structured
              (Json.obj [("hello", Json.str "world")])))
            "gethello" none 9⟩).req.body = none ∧
    (Emission.record
        ⟨LogLevel.info,
          assembleFields ({} : AuditConfig)
            (wReq "GET" "/hello" BodyVal.absent)
            (wRes 200 (BodyVal.structured
              (Json.obj [("hello", Json.str "world")])))
            "gethello" none 9⟩).res.body = none := by
  exact c2_no_policy_no_bodies [] (wReq "GET" "/hello" BodyVal.absent)
    (wRes 200 (BodyVal.structured (Json.obj [("hello", Json.str "world")])))
    "gethello" none 9 _ (List.mem_singleton.mpr rfl)

/-- C3: a route whose override entry sets `include := false` emits no
record at all, for every configuration, hook, status and error. -/
theorem c3_include_false_suppresses (cfg : AuditConfig)
    (hook : MutationHook) (req : Req) (res : Res) (rid : String)
    (ov : RouteOverride) (err : Option JsError) (now : Nat)
    (hov : cfg.routeOverrides.lookup rid = some ov)
    (hincl : ov.incl = some false) :
    auditLogHandler cfg hook req res rid err now = [] := by
  rw [auditLogHandler_eq]
  have hr : (resolveRoute cfg.routeOverrides rid).incl = false := by
    unfold resolveRoute
    rw [hov]
    simp [hincl]
  simp [hr]

/-- C3 witness: the `getping \x7binclude: false\x7d` override from the README
suppresses emission for a 500-status invocation carrying an error. -/
theorem c3_witness :
    (wCfgPing.routeOverrides.lookup "getping" =
      some ({ incl := some false } : RouteOverride)) ∧
    auditLogHandler wCfgPing noHook (wReq "GET" "/ping" BodyVal.absent)
      (wRes 500 (BodyVal.text "oh no")) "getping" (some wErr) 9 = [] :=
  ⟨by rfl,
   c3_include_false_suppresses wCfgPing noHook
     (wReq "GET" "/ping" BodyVal.absent) (wRes 500 (BodyVal.text "oh no"))
     "getping" { incl := some false } (some wErr) 9 (by rfl) rfl⟩

/-- C4: when the pipeline error wraps a cause chain, every emitted
record's error detail is the formatted outer error and its stack text
contains each chain message as a substring; when no error is present the
error detail is absent. -/
theorem c4_error_chain (cfg : AuditConfig) (req : Req) (res : Res)
    (rid : String) (e : JsError) (now : Nat) (m : String)
    (hm : m ∈ JsError.chainMessages e) :
    (∀ em ∈ auditLogHandler cfg noHook req res rid (some e) now,
        em.record.err = some (formatError e) ∧
          containsStr (formatError e).stack m) ∧
    (∀ em ∈ auditLogHandler cfg noHook req res rid none now,
        em.record.err = none) := by
  constructor
  · intro em hem
    rw [auditLogHandler_eq] at hem
    split at hem
    · rw [List.mem_singleton] at hem
      subst hem
      refine ⟨by simp [noHook, assembleFields], ?_⟩
      exact chainMessages_containsStr_fullStack e m hm
    · simp at hem
  · intro em hem
    rw [auditLogHandler_eq] at hem
    split at hem
    · rw [List.mem_singleton] at hem
      subst hem
      simp [noHook, assembleFields]
    · simp at hem

/-- C4 witness: the `/oops` scenario — `InternalError` wrapping the root
cause; the emitted error stack contains "this was the root cause". -/
theorem c4_witness :
    ("this was the root cause" ∈ JsError.chainMessages wErr) ∧
    (Emission.record
        ⟨LogLevel.info,
          assembleFields {} (wReq "GET" "/oops" BodyVal.absent)
            (wRes 500 BodyVal.absent) "getoops" (some wErr) 9⟩).err =
      some (formatError wErr) ∧
    containsStr (formatError wErr).stack "this was the root cause" := by
  refine ⟨by decide, ?_⟩
  exact (c4_error_chain {} (wReq "GET" "/oops" BodyVal.absent)
      (wRes 500 BodyVal.absent) "getoops" wErr 9 "this was the root cause"
      (by decide)).1 _ (List.mem_singleton.mpr rfl)

/-- C5: a structured body actually captured under an enabled policy is the
body's canonical JSON serialisation when that text fits in `maxLen`, and
is truncated to exactly `maxLen` characters otherwise. -/
theorem c5_structured_roundtrip (pol : BodyPolicy) (method : String)
    (st : Nat) (j : Json) (s : String)
    (h : captureBody pol method st (BodyVal.structured j) = some s) :
    (j.render.length ≤ pol.maxLen → s = j.render) ∧
    (pol.maxLen < j.render.length → s.length = pol.maxLen) := by
  rw [captureBody_eq] at h
  split at h
  · simp only [BodyVal.textForm, Option.map_some', Option.some.injEq] at h
    subst h
    constructor
    · intro hle
      exact clip_of_length_le j.render pol.maxLen hle
    · intro hlt
      rw [length_clip]
      omega
  · simp at h

/-- C5 witness: a JSON string body of serialised length 10 under a policy
with `maxLen = 5` is captured truncated to exactly 5 characters. -/
theorem c5_witness :
    (captureBody { incl := true, maxLen := 5, includeGet2xx := false }
        "PUT" 404 (BodyVal.structured (Json.str "abcdefgh")) =
      some (clip (Json.render (Json.str "abcdefgh")) 5)) ∧
    ((Json.render (Json.str "abcdefgh")).length ≤ 5 →
      clip (Json.render (Json.str "abcdefgh")) 5 =
        Json.render (Json.str "abcdefgh")) ∧
    (5 < (Json.render (Json.str "abcdefgh")).length →
      (clip (Json.render (Json.str "abcdefgh")) 5).length = 5) :=
  ⟨by rfl,
   (c5_structured_roundtrip
     { incl := true, maxLen := 5, includeGet2xx := false } "PUT" 404
     (Json.str "abcdefgh") (clip (Json.render (Json.str "abcdefgh")) 5)
     (by rfl)).1,
   (c5_structured_roundtrip
     { incl := true, maxLen := 5, includeGet2xx := false } "PUT" 404
     (Json.str "abcdefgh") (clip (Json.render (Json.str "abcdefgh")) 5)
     (by rfl)).2⟩

/-- C6: a route-override entry specifying only `logLevel` leaves the
effective `include` at its default `true`, and one record is emitted at
the overridden level; the unspecified field takes the global default. -/
theorem c6_partial_override (cfg : AuditConfig) (hook : MutationHook)
    (req : Req) (res : Res) (rid : String) (ov : RouteOverride)
    (lvl : LogLevel) (err : Option JsError) (now : Nat)
    (hov : cfg.routeOverrides.lookup rid = some ov)
    (hincl : ov.incl = none) (hlvl : ov.logLevel = some lvl) :
    resolveRoute cfg.routeOverrides rid =
      { incl := true, logLevel := lvl } ∧
    (auditLogHandler cfg hook req res rid err now).map Emission.level =
      [lvl] := by
  have hr : resolveRoute cfg.routeOverrides rid =
      { incl := true, logLevel := lvl } := by
    unfold resolveRoute
    rw [hov]
    simp [hincl, hlvl]
  refine ⟨hr, ?_⟩
  rw [auditLogHandler_eq, hr]
  simp

/-- C6 witness: the example server's `oops: \x7blogLevel: error\x7d` override —
include defaults to true and the record is emitted at the error level. -/
theorem c6_witness :
    ([("oops", ({ logLevel := some LogLevel.error } : RouteOverride))].lookup
        "oops" = some ({ logLevel := some LogLevel.error } : RouteOverride)) ∧
    resolveRoute [("oops", { logLevel := some LogLevel.error })] "oops" =
      { incl := true, logLevel := LogLevel.error } ∧
    (auditLogHandler
        { resBody := some {},
          routeOverrides := [("oops", { logLevel := some LogLevel.error })] }
        noHook (wReq "GET" "/oops" BodyVal.absent)
        (wRes 500 BodyVal.absent) "oops" (some wErr) 9).map
      Emission.level = [LogLevel.error] := by
  refine ⟨by rfl, ?_⟩
  exact c6_partial_override
    { resBody := some {},
      routeOverrides := [("oops", { logLevel := some LogLevel.error })] }
    noHook (wReq "GET" "/oops" BodyVal.absent) (wRes 500 BodyVal.absent)
    "oops" { logLevel := some LogLevel.error } LogLevel.error (some wErr) 9
    (by rfl) rfl rfl

/-- C7: when the mutation hook throws on the assembled fields, the throw
is absorbed and the invocation behaves exactly like one with the trivial
hook: the record is still emitted (without the intended mutation) and no
exception propagates (the handler is a total function into emissions). -/
theorem c7_hook_failure_isolated (cfg : AuditConfig) (hook : MutationHook)
    (req : Req) (res : Res) (rid : String) (err : Option JsError)
    (now : Nat) (msg : String)
    (h : hook (assembleFields cfg req res rid err now) =
      Except.error msg) :
    auditLogHandler cfg hook req res rid err now =
      auditLogHandler cfg noHook req res rid err now := by
  rw [auditLogHandler_eq, auditLogHandler_eq, h]
  simp [noHook]

/-- C7 witness: a hook that always throws leaves the emission of a
concrete invocation identical to the trivial-hook emission. -/
theorem c7_witness :
    ((fun _ => Except.error "hook blew up" : MutationHook)
        (assembleFields wCfgPing (wReq "GET" "/hello" BodyVal.absent)
          (wRes 200 BodyVal.absent) "gethello" none 9) =
      Except.error "hook blew up") ∧
    auditLogHandler wCfgPing (fun _ => Except.error "hook blew up")
        (wReq "GET" "/hello" BodyVal.absent) (wRes 200 BodyVal.absent)
        "gethello" none 9 =
      auditLogHandler wCfgPing noHook (wReq "GET" "/hello" BodyVal.absent)
        (wRes 200 BodyVal.absent) "gethello" none 9 :=
  ⟨rfl,
   c7_hook_failure_isolated wCfgPing (fun _ => Except.error "hook blew up")
     (wReq "GET" "/hello" BodyVal.absent) (wRes 200 BodyVal.absent)
     "gethello" none 9 "hook blew up" rfl⟩

/-- C8: every invocation performs at most one sink emission, and performs
exactly one precisely when the route's resolved `include` is true; the
handler is a total function, so every invocation reaches its terminal
emission-or-suppression outcome. -/
theorem c8_at_most_one_emission (cfg : AuditConfig) (hook : MutationHook)
    (req : Req) (res : Res) (rid : String) (err : Option JsError)
    (now : Nat) :
    (auditLogHandler cfg hook req res rid err now).length ≤ 1 ∧
    ((auditLogHandler cfg hook req res rid err now).length = 1 ↔
      (resolveRoute cfg.routeOverrides rid).incl = true) := by
  rw [auditLogHandler_eq]
  cases h : (resolveRoute cfg.routeOverrides rid).incl <;> simp [h]

/-- C9: when the matched route has no override entry, or an entry without
`logLevel`, every emission is at the fixed default level `info` — for
every response (in particular every status code, so a 5xx status does not
elevate the level). -/
theorem c9_default_level_info (cfg : AuditConfig) (hook : MutationHook)
    (req : Req) (res : Res) (rid : String) (err : Option JsError)
    (now : Nat)
    (h : cfg.routeOverrides.lookup rid = none ∨
      ∃ ov, cfg.routeOverrides.lookup rid = some ov ∧ ov.logLevel = none) :
    ∀ em ∈ auditLogHandler cfg hook req res rid err now,
      em.level = LogLevel.info := by
  have hlvl : (resolveRoute cfg.routeOverrides rid).logLevel =
      LogLevel.info := by
    unfold resolveRoute
    rcases h with h | ⟨ov, hov, hnone⟩
    · rw [h]
    · rw [hov]
      simp [hnone]
  intro em hem
  rw [auditLogHandler_eq] at hem
  split at hem
  · rw [List.mem_singleton] at hem
    subst hem
    exact hlvl
  · simp at hem

/-- C9 witness: a 500-status invocation with an error on a route with no
override entry is emitted at `info` — no automatic elevation for 5xx. -/
theorem c9_witness :
    (([] : List (String × RouteOverride)).lookup "getoops" = none ∨
      ∃ ov, ([] : List (String × RouteOverride)).lookup "getoops" =
          some ov ∧ ov.logLevel = none) ∧
    (Emission.level
        ⟨(resolveRoute [] "getoops").logLevel,
          assembleFields ({} : AuditConfig)
            (wReq "GET" "/oops" BodyVal.absent) (wRes 500 BodyVal.absent)
            "getoops" (some wErr) 9⟩) = LogLevel.info := by
  refine ⟨Or.inl rfl, ?_⟩
  exact c9_default_level_info ({} : AuditConfig) noHook
    (wReq "GET" "/oops" BodyVal.absent) (wRes 500 BodyVal.absent)
    "getoops" (some wErr) 9 (Or.inl rfl) _ (List.mem_singleton.mpr rfl)

/-- C10: when the pipeline error wraps a cause, the emitted error detail's
`name` and `message` are exactly the outermost error's (whatever the
cause is, so the cause contributes to neither), while the cause's own
message is contained in the `stack` text. -/
theorem c10_outer_error_fields (cfg : AuditConfig) (req : Req) (res : Res)
    (rid : String) (n m f : String) (c : JsError) (now : Nat) :
    ∀ em ∈ auditLogHandler cfg noHook req res rid
        (some (JsError.wrap n m f c)) now,
      em.record.err = some (formatError (JsError.wrap n m f c)) ∧
      (formatError (JsError.wrap n m f c)).name = n ∧
      (formatError (JsError.wrap n m f c)).message = m ∧
      containsStr (formatError (JsError.wrap n m f c)).stack
        (JsError.message c) := by
  intro em hem
  rw [auditLogHandler_eq] at hem
  split at hem
  · rw [List.mem_singleton] at hem
    subst hem
    refine ⟨by simp [noHook, assembleFields], rfl, rfl, ?_⟩
    have hmem : JsError.message c ∈
        JsError.chainMessages (JsError.wrap n m f c) := by
      simp only [JsError.chainMessages]
      exact List.mem_cons_of_mem m (message_mem_chainMessages c)
    exact chainMessages_containsStr_fullStack (JsError.wrap n m f c)
      (JsError.message c) hmem
  · simp at hem

/-- C10 witness: the `/oops` scenario — the emitted error detail carries
the outer `InternalError` name and message, and the root-cause message
sits in the stack text. -/
theorem c10_witness :
    (Emission.record
        ⟨LogLevel.info,
          assembleFields ({} : AuditConfig)
            (wReq "GET" "/oops" BodyVal.absent) (wRes 500 BodyVal.absent)
            "getoops" (some wErr) 9⟩).err = some (formatError wErr) ∧
    (formatError wErr).name = "InternalError" ∧
    (formatError wErr).message = "something blew up" ∧
    containsStr (formatError wErr).stack "this was the root cause" := by
  exact c10_outer_error_fields ({} : AuditConfig)
    (wReq "GET" "/oops" BodyVal.absent) (wRes 500 BodyVal.absent)
    "getoops" "InternalError" "something blew up" "    at handleOops"
    (JsError.base "Error" "this was the root cause" "    at oops") 9 _
    (List.mem_singleton.mpr rfl)

end TritonAuditLogger
